import Mathlib

/-!
Verification of the hxntools ROI-registry and beam-gate components.

This file gives a shallow embedding, in Lean 4, of the algorithmic core of
the hxntools repository:

* `src/hxntools/detectors/xspress3.py` — the energy/bin transform
  (`ev_to_bin` / `bin_to_ev`), the `ROISnapshot` constructor, the
  `EpicsROI.configure_bin` / `EpicsROI.clear` hardware-programming
  protocol, and the `Xspress3Rois` registry operations
  (`set`, `clear`, `clear_all`, `add`, `read_hdf5`);
* `src/hxntools/detectors/beamstatus.py` — the `BeamStatusDetector`
  beam-gate state machine (`_shutter_changed`, `_current_changed`,
  `_check_status`, `_done`, `trigger`, `read`, and the `min_current`
  setter).

Python `dict`s are embedded as insertion-ordered association lists
(`alookup` / `ainsert` / `aerase` mirror `d[k]`, `d[k] = v`, `del d[k]`);
Python numbers are `Int` (truncating `int(x / 10)` is `Int.tdiv x 10`);
exceptions are modelled by returning the post-mutation state together with
an optional `PyErr`, so that mutations performed before a `raise` are
observable, exactly as in Python.  EPICS device registers addressed by
`(channel, roi)` PV names are a function `Nat → Nat → HwState`; each
`caput` is an explicit `HwWrite` event so that transient device states
between writes can be inspected.  External collaborators (the h5py archive
reader and the `Xspress3HDF5Handler.get_roi` ROI summation, both declared
out of scope by the design) enter as parameters (`openOk`, `get_roi`).
-/

/-- Python exception values that the embedded code can raise. -/
inductive PyErr where
  | valueError : String → PyErr
  | keyError : Nat → PyErr
  | runtimeError : String → PyErr
  | attributeError : String → PyErr
  | outOfFuel : PyErr
deriving DecidableEq, Repr

/-- Embedding of `ev_to_bin(ev) = int(ev / 10)` from xspress3.py: true
division followed by `int()` truncates toward zero, which is `Int.tdiv`. -/
def ev_to_bin (ev : Int) : Int := Int.tdiv ev 10

/-- Embedding of `bin_to_ev(bin_) = int(bin_) * 10` from xspress3.py. -/
def bin_to_ev (b : Int) : Int := b * 10

/-- The fields of the `ROISnapshot` namedtuple from xspress3.py.  The
`epics_roi` field holds either a live hardware handle or `None`; only its
presence is semantically relevant, so it is embedded as `has_handle`.
`data` is `None` for registry entries and a materialized series for
snapshots produced by `read_hdf5`. -/
structure ROISnapshot where
  name : Option String
  chan : Nat
  ev_low : Int
  ev_high : Int
  bin_low : Int
  bin_high : Int
  data : Option (List Int)
  has_handle : Bool
deriving DecidableEq, Repr

/-- Embedding of `ROISnapshot.__new__`: if both `ev_low` and `ev_high` are
given (not `None`), the bin pair is recomputed from them via `ev_to_bin`;
otherwise, if both `bin_low` and `bin_high` are given, the energy pair is
recomputed via `bin_to_ev`; otherwise `ValueError` is raised. -/
def ROISnapshot.make (chan : Nat) (ev_low ev_high bin_low bin_high : Option Int)
    (name : Option String) (data : Option (List Int)) (has_handle : Bool) :
    Except PyErr ROISnapshot :=
  match ev_low, ev_high with
  | some el, some eh =>
      .ok ⟨name, chan, el, eh, ev_to_bin el, ev_to_bin eh, data, has_handle⟩
  | _, _ =>
      match bin_low, bin_high with
      | some bl, some bh =>
          .ok ⟨name, chan, bin_to_ev bl, bin_to_ev bh, bl, bh, data, has_handle⟩
      | _, _ => .error (.valueError "Bin or energy must be specified")

/-- State of the EPICS ROI registers for one `(channel, roi)` address:
the `_LLM` (low bin) and `_HLM` (high bin) limits and the
`EnableCallbacks` flag. -/
structure HwState where
  bin_low : Int
  bin_high : Int
  enabled : Int
deriving DecidableEq, Repr

/-- A single `caput` performed by `EpicsROI`. -/
inductive HwWrite where
  | low : Int → HwWrite
  | high : Int → HwWrite
  | enable : Int → HwWrite
deriving DecidableEq, Repr

/-- The sequence of device writes performed by `EpicsROI.configure_bin`:
if the new high bound is at most the current low register value, first
zero the low register; then write high, then low; finally write the
enable flag (1 iff `bin_high > bin_low`). -/
def configure_bin_writes (cur_low bin_low bin_high : Int) : List HwWrite :=
  (if bin_high ≤ cur_low then [HwWrite.low 0] else []) ++
    [HwWrite.high bin_high, HwWrite.low bin_low,
     if bin_high > bin_low then HwWrite.enable 1 else HwWrite.enable 0]

/-- Effect of one device write on the register state. -/
def applyWrite (s : HwState) : HwWrite → HwState
  | .low v => { s with bin_low := v }
  | .high v => { s with bin_high := v }
  | .enable v => { s with enabled := v }

/-- Embedding of `EpicsROI.configure_bin(bin_low, bin_high)`: the final
register state after replaying all writes. -/
def configure_bin (s : HwState) (bin_low bin_high : Int) : HwState :=
  (configure_bin_writes s.bin_low bin_low bin_high).foldl applyWrite s

/-- Embedding of `EpicsROI.configure(ev_low, ev_high)`. -/
def configure_ev (s : HwState) (ev_low ev_high : Int) : HwState :=
  configure_bin s (ev_to_bin ev_low) (ev_to_bin ev_high)

/-- Embedding of `EpicsROI.clear`: if both bin registers are already zero,
return without writing; otherwise zero both bounds and disable. -/
def epicsClear (s : HwState) : HwState :=
  if s.bin_low = 0 ∧ s.bin_high = 0 then s else ⟨0, 0, 0⟩

/-- All register states visited while replaying a write sequence,
including the initial and the final state. -/
def hwStates (s : HwState) : List HwWrite → List HwState
  | [] => [s]
  | w :: ws => s :: hwStates (applyWrite s w) ws

/-- The register states strictly between two consecutive device writes of
a write sequence: every visited state except the state before the first
write and the state after the last write. -/
def betweenStates (s : HwState) (ws : List HwWrite) : List HwState :=
  ((hwStates s ws).drop 1).dropLast

/-- State of the `BeamStatusDetector` beam gate from beamstatus.py:
the mutable threshold `_min_current`, the last values delivered by the two
EPICS signal subscriptions, the derived `_shutter_ok` / `_current_ok`
flags, `_last_status`, and the `_statuses` waiter list (each waiter
represented by its `done` flag, in registration order). -/
structure BeamState where
  min_current : Int
  shutter_value : Option Int
  current_value : Option Int
  shutter_ok : Bool
  current_ok : Bool
  last_status : Option Bool
  statuses : List Bool
deriving DecidableEq, Repr

/-- Embedding of the `status` property: `_shutter_ok and _current_ok`. -/
def beamStatus (st : BeamState) : Bool := st.shutter_ok && st.current_ok

/-- Embedding of `_check_status` (the logging calls are pure
observability and are not modelled): if `status` is true, `_done()` marks
every waiter in `_statuses` done — without removing any of them — and in
all cases `_last_status` is updated. -/
def check_status (st : BeamState) : BeamState :=
  if beamStatus st then
    { st with statuses := st.statuses.map fun _ => true,
              last_status := some (beamStatus st) }
  else
    { st with last_status := some (beamStatus st) }

/-- Embedding of `_shutter_changed(value)`: `_shutter_ok = (value == 1)`
then `_check_status()`. -/
def shutter_changed (st : BeamState) (v : Int) : BeamState :=
  check_status { st with shutter_ok := v == 1 }

/-- Embedding of `_current_changed(value)`:
`_current_ok = (value > _min_current)` then `_check_status()`. -/
def current_changed (st : BeamState) (v : Int) : BeamState :=
  check_status { st with current_ok := decide (st.min_current < v) }

/-- An asynchronous input to the beam gate: a shutter-state update or a
beam-current update delivered by the corresponding subscription.  The
subscribed signal records the delivered value before the callback runs. -/
inductive BeamEvent where
  | shutter : Int → BeamEvent
  | current : Int → BeamEvent
deriving DecidableEq, Repr

/-- Effect of one subscription callback on the gate state. -/
def applyEvent (st : BeamState) : BeamEvent → BeamState
  | .shutter v => shutter_changed { st with shutter_value := some v } v
  | .current v => current_changed { st with current_value := some v } v

/-- Embedding of `trigger()`: create a `DeviceStatus` token; if `status`
is true mark it done immediately and do not register it, otherwise append
it (not yet done) to `_statuses`.  Returns the new state and the returned
token's `done` flag. -/
def trigger (st : BeamState) : BeamState × Bool :=
  if beamStatus st then (st, true)
  else ({ st with statuses := st.statuses ++ [false] }, false)

/-- Embedding of `read()`: `del self._statuses[:]` empties the waiter
list (the superclass read of the signal values is external). -/
def readGate (st : BeamState) : BeamState :=
  { st with statuses := [] }

/-- Attribute lookup for EPICS-signal components of `BeamStatusDetector`,
followed by `.get()`.  The class defines exactly two signal components,
`shutter_status` and `beam_current`; `.get()` returns the signal's most
recent value.  Any other attribute name raises `AttributeError`. -/
def getattrSignalGet (st : BeamState) (attr : String) : Except PyErr Int :=
  if attr = "shutter_status" then .ok (st.shutter_value.getD 0)
  else if attr = "beam_current" then .ok (st.current_value.getD 0)
  else .error (.attributeError attr)

/-- Embedding of the `min_current` property setter: store the new
threshold, then call `_current_changed(value=self.sr_beam_current.get())`.
The attribute named `sr_beam_current` in the source is looked up on the
device before the callback can run. -/
def min_current_set (st : BeamState) (value : Int) : BeamState × Option PyErr :=
  match getattrSignalGet { st with min_current := value } "sr_beam_current" with
  | .error e => ({ st with min_current := value }, some e)
  | .ok v => (current_changed { st with min_current := value } v, none)

/-- A beam gate that is currently usable: threshold 100, shutter open,
last observed current 150. -/
def gate150 : BeamState :=
  ⟨100, some 1, some 150, true, true, some true, []⟩

/-- A beam gate in its initial state: nothing observed yet, not usable. -/
def gateInit : BeamState :=
  ⟨100, none, none, false, false, none, []⟩

/-- Lookup in a Python-dict embedding (`d[k]`): association list scanned
from the front, keys unique in any state reachable by the operations
below. -/
def alookup {α : Type} (k : Nat) : List (Nat × α) → Option α
  | [] => none
  | p :: t => if p.1 = k then some p.2 else alookup k t

/-- Insertion in a Python-dict embedding (`d[k] = v`): an existing key
keeps its position, a new key is appended at the end, matching the
insertion-order semantics of Python dicts. -/
def ainsert {α : Type} (k : Nat) (v : α) : List (Nat × α) → List (Nat × α)
  | [] => [(k, v)]
  | p :: t => if p.1 = k then (k, v) :: t else p :: ainsert k v t

/-- Deletion in a Python-dict embedding (`del d[k]`). -/
def aerase {α : Type} (k : Nat) : List (Nat × α) → List (Nat × α)
  | [] => []
  | p :: t => if p.1 = k then t else p :: aerase k t

/-- State of an `Xspress3Rois` registry together with the configuration
it copies from its detector at construction (`num_roi`, `num_channels`,
`default_channels`) and the EPICS register file it programs through
`EpicsROI` handles, addressed by `(channel, roi)`.  `chan_pfx` embeds
`channel_prefix`; the default `name_format` is kept fixed. -/
structure Xspress3Rois where
  num_roi : Nat
  num_channels : Nat
  limit_rois : Bool
  default_channels : List Nat
  chan_pfx : Option String
  roi_config : List (Nat × List (Nat × ROISnapshot))
  hw : Nat → Nat → HwState

/-- Pointwise update of the EPICS register file at one
`(channel, roi)` address. -/
def hwUpdate (hw : Nat → Nat → HwState) (c r : Nat) (f : HwState → HwState) :
    Nat → Nat → HwState :=
  fun c' r' => if c' = c ∧ r' = r then f (hw c' r') else hw c' r'

/-- The `ValueError` message used by both `set` and `add` when
`limit_rois` is enabled and the requested slot exceeds `num_roi`. -/
def capacityMsg : String :=
  "Cannot add more ROIs than the EPICS layer supports"

/-- Embedding of `Xspress3Rois.set(channel, roi, ev_low, ev_high, name)`.
Mirrors the source line by line: first ensure the channel key exists
(creating an empty per-channel dict if not); if both energies are zero,
delete the `(channel, roi)` entry if present (returning silently if
absent) and hardware-clear its handle if it had one; otherwise create a
hardware handle when `roi <= num_roi` (programming it via
`configure(ev_low, ev_high)`), raise `ValueError` when the slot is over
capacity and `limit_rois` is set, and finally store the `ROISnapshot`.
The result pairs the post-mutation state with the raised exception, if
any, since a Python `raise` does not undo prior mutations. -/
def Xspress3Rois.set (st : Xspress3Rois) (channel roi : Nat)
    (ev_low ev_high : Int) (name : Option String) :
    Xspress3Rois × Option PyErr :=
  let st1 := if alookup channel st.roi_config = none then
      { st with roi_config := ainsert channel [] st.roi_config } else st
  if ev_low = 0 ∧ ev_high = 0 then
    match alookup roi ((alookup channel st1.roi_config).getD []) with
    | none => (st1, none)
    | some info =>
        let m2 := aerase roi ((alookup channel st1.roi_config).getD [])
        let st2 := { st1 with roi_config := ainsert channel m2 st1.roi_config }
        if info.has_handle then
          ({ st2 with hw := hwUpdate st2.hw channel roi epicsClear }, none)
        else (st2, none)
  else
    if roi ≤ st1.num_roi then
      let hw2 := hwUpdate st1.hw channel roi (fun s => configure_ev s ev_low ev_high)
      let st2 := { st1 with hw := hw2 }
      match ROISnapshot.make channel (some ev_low) (some ev_high) none none
          name none true with
      | .ok info =>
          let m2 := ainsert roi info ((alookup channel st2.roi_config).getD [])
          ({ st2 with roi_config := ainsert channel m2 st2.roi_config }, none)
      | .error e => (st2, some e)
    else if st1.limit_rois then
      (st1, some (.valueError capacityMsg))
    else
      match ROISnapshot.make channel (some ev_low) (some ev_high) none none
          name none false with
      | .ok info =>
          let m2 := ainsert roi info ((alookup channel st1.roi_config).getD [])
          ({ st1 with roi_config := ainsert channel m2 st1.roi_config }, none)
      | .error e => (st1, some e)

/-- Embedding of `Xspress3Rois.clear(channel, roi)`:
`set(channel, roi, 0, 0)`. -/
def Xspress3Rois.clear (st : Xspress3Rois) (channel roi : Nat) :
    Xspress3Rois × Option PyErr :=
  st.set channel roi 0 0 none

/-- Hardware side of `clear_all` for one channel: walk the channel's
entries in order and issue `EpicsROI.clear` for each one holding a
handle. -/
def hwClearChan (hw : Nat → Nat → HwState) (channel : Nat)
    (entries : List (Nat × ROISnapshot)) : Nat → Nat → HwState :=
  entries.foldl
    (fun h p => if p.2.has_handle then hwUpdate h channel p.1 epicsClear else h) hw

/-- One iteration of the `clear_all` channel loop:
`chan_rois = self._roi_config[channel]` raises `KeyError` for an
unregistered channel; otherwise every hardware handle is cleared and the
per-channel dict is emptied in place. -/
def clearOneChannel (st : Xspress3Rois) (channel : Nat) :
    Xspress3Rois × Option PyErr :=
  match alookup channel st.roi_config with
  | none => (st, some (.keyError channel))
  | some m =>
      ({ st with hw := hwClearChan st.hw channel m,
                 roi_config := ainsert channel [] st.roi_config }, none)

/-- Python `for` loop over channels with exception propagation: stop at
the first iteration that raises, keeping its partial mutations. -/
def foldChannels (f : Xspress3Rois → Nat → Xspress3Rois × Option PyErr) :
    Xspress3Rois → List Nat → Xspress3Rois × Option PyErr
  | st, [] => (st, none)
  | st, c :: cs =>
      match f st c with
      | (st', none) => foldChannels f st' cs
      | (st', some e) => (st', some e)

/-- Embedding of `Xspress3Rois.clear_all(channels)`: default channel list
is the registered channels, in insertion order. -/
def Xspress3Rois.clear_all (st : Xspress3Rois) (channels : Option (List Nat)) :
    Xspress3Rois × Option PyErr :=
  foldChannels clearOneChannel st (channels.getD (st.roi_config.map Prod.fst))

/-- Embedding of `_get_roi_name` with the default
`name_format = '\x7bself.channel_prefix\x7d\x7bchannel\x7d_\x7bname\x7d'`;
Python formats a `None` prefix as the string `None`. -/
def get_roi_name (pfx : Option String) (channel : Nat) (sfx : String) : String :=
  (pfx.getD "None") ++ toString channel ++ "_" ++ sfx

/-- The `while True` slot probe of `Xspress3Rois.add` for one channel:
starting at slot 1, raise `ValueError` as soon as `limit_rois` is set and
the probed slot exceeds `num_roi`; otherwise return the first slot not
present in the channel dict.  `fuel` bounds the recursion; every call
below supplies enough fuel for the probe to terminate as the Python loop
does. -/
def addProbe (lim : Bool) (nr : Nat) (m : List (Nat × ROISnapshot)) :
    Nat → Nat → Except PyErr Nat
  | _, 0 => .error .outOfFuel
  | roi_num, fuel + 1 =>
      if lim ∧ roi_num > nr then .error (.valueError capacityMsg)
      else
        match alookup roi_num m with
        | none => .ok roi_num
        | some _ => addProbe lim nr m (roi_num + 1) fuel

/-- One iteration of the `add` channel loop: probe for the lowest unused
slot, then `set` there with the formatted name. -/
def addOneChannel (st : Xspress3Rois) (ev_low ev_high : Int) (sfx : String)
    (channel : Nat) : Xspress3Rois × Option PyErr :=
  let m := (alookup channel st.roi_config).getD []
  match addProbe st.limit_rois st.num_roi m 1 (st.num_roi + m.length + 2) with
  | .error e => (st, some e)
  | .ok roi_num =>
      st.set channel roi_num ev_low ev_high
        (some (get_roi_name st.chan_pfx channel sfx))

/-- Embedding of `Xspress3Rois.add(ev_low, ev_high, name, channels)`:
default channel list is the detector's `default_channels`. -/
def Xspress3Rois.add (st : Xspress3Rois) (ev_low ev_high : Int) (sfx : String)
    (channels : Option (List Nat)) : Xspress3Rois × Option PyErr :=
  foldChannels (fun s c => addOneChannel s ev_low ev_high sfx c) st
    (channels.getD st.default_channels)

/-- Lexicographic comparison of code-point lists, used to embed Python
string ordering for `sorted(..., key=lambda x: x.name)`. -/
def natListLe : List Nat → List Nat → Bool
  | [], _ => true
  | _ :: _, [] => false
  | a :: as, b :: bs => if a < b then true else if b < a then false else natListLe as bs

/-- String comparison as ordering of code points. -/
def strLe (a b : String) : Bool :=
  natListLe (a.data.map Char.toNat) (b.data.map Char.toNat)

/-- Ordering on optional names (a `None` name sorts first). -/
def optNameLe : Option String → Option String → Bool
  | none, _ => true
  | some _, none => false
  | some a, some b => strLe a b

/-- Insertion step of the name sort. -/
def insertByName (r : ROISnapshot) : List ROISnapshot → List ROISnapshot
  | [] => [r]
  | x :: xs => if optNameLe r.name x.name then r :: x :: xs else x :: insertByName r xs

/-- Embedding of `sorted(rois, key=lambda x: x.name)`. -/
def sortByName (l : List ROISnapshot) : List ROISnapshot :=
  l.foldr insertByName []

/-- Insertion step of the key sort for dict items. -/
def insertByKey {α : Type} (p : Nat × α) : List (Nat × α) → List (Nat × α)
  | [] => [p]
  | q :: qs => if p.1 ≤ q.1 then p :: q :: qs else q :: insertByKey p qs

/-- Embedding of `sorted(d.items())` for Nat-keyed dicts. -/
def sortByKey {α : Type} (l : List (Nat × α)) : List (Nat × α) :=
  l.foldr insertByKey []

/-- The default ROI list of `read_hdf5`: every stored definition, outer
dict sorted by channel, inner dicts sorted by slot. -/
def defaultRois (st : Xspress3Rois) : List ROISnapshot :=
  (sortByKey st.roi_config).flatMap fun p => (sortByKey p.2).map Prod.snd

/-- The `while retry < max_retries` open-retry loop of `read_hdf5`.
`openOk n` tells whether the n-th `h5py.File(fn, 'r')` attempt succeeds
(the archive is an external collaborator).  On a failed attempt the code
sleeps and signals stop-acquisition (external effects), then raises
`RuntimeError` when `wait` is false; on a successful attempt it breaks
out of the loop.  Returns the final value of `retry` and whether the file
was opened; `fuel` bounds the recursion and `max_retries + 1` always
suffices. -/
def openLoop (openOk : Nat → Bool) (wait : Bool) (max_retries : Nat) :
    Nat → Nat → Except PyErr (Nat × Bool)
  | _, 0 => .error .outOfFuel
  | retry, fuel + 1 =>
      if retry < max_retries then
        if openOk (retry + 1) then .ok (retry + 1, true)
        else if wait then openLoop openOk wait max_retries (retry + 1) fuel
        else .error (.runtimeError "Unable to open HDF5 file; retry disabled")
      else .ok (retry, false)

/-- Embedding of `Xspress3Rois.read_hdf5(fn, rois, wait, max_retries)`,
fully consumed as a generator.  `get_roi` stands for the external
`Xspress3HDF5Handler.get_roi` spectrum summation and `num_points` for
`det.num_images.value`.  After the open-retry loop, the source raises the
retry-exhausted `RuntimeError` whenever `retry >= max_retries` — even
when the loop exited through a successful open on the final attempt;
otherwise it yields one `ROISnapshot` per requested ROI in ascending name
order. -/
def read_hdf5 (st : Xspress3Rois) (openOk : Nat → Bool)
    (get_roi : ROISnapshot → Nat → List Int) (num_points : Nat)
    (rois : Option (List ROISnapshot)) (wait : Bool) (max_retries : Nat) :
    Except PyErr (List ROISnapshot) :=
  let roiList := rois.getD (defaultRois st)
  match openLoop openOk wait max_retries 0 (max_retries + 1) with
  | .error e => .error e
  | .ok (retry, _) =>
      if retry ≥ max_retries then
        .error (.runtimeError "Unable to open HDF5 file; exceeded maximum retries")
      else
        .ok ((sortByName roiList).map fun r =>
          ⟨r.name, r.chan, r.ev_low, r.ev_high, ev_to_bin r.ev_low,
            ev_to_bin r.ev_high, some (get_roi r num_points), false⟩)

/-- The `ROISnapshot` that a successful non-zero `set(channel, roi,
ev_low, ev_high, name)` stores: energies authoritative, bins derived,
`data = None`, and a hardware handle exactly when the slot is within
capacity. -/
def storedInfo (st : Xspress3Rois) (c r : Nat) (low high : Int)
    (nm : Option String) : ROISnapshot :=
  ⟨nm, c, low, high, ev_to_bin low, ev_to_bin high, none, decide (r ≤ st.num_roi)⟩

/-- A freshly constructed registry for a detector with the default
hardware capacity `num_roi = 16`, 8 channels, strict `limit_rois`, no
stored ROIs, and all device registers zeroed. -/
def rois0 : Xspress3Rois :=
  ⟨16, 8, true, [1, 2, 3], none, [], fun _ _ => ⟨0, 0, 0⟩⟩

/-- A stored ROI definition used to populate example registries. -/
def dummyInfo : ROISnapshot :=
  ⟨some "roi", 1, 100, 200, 10, 20, none, true⟩

/-- A registry whose hardware capacity (2 slots) is fully occupied on
channel 1, with `limit_rois` enabled. -/
def stFull : Xspress3Rois :=
  ⟨2, 8, true, [1], none, [(1, [(1, dummyInfo), (2, dummyInfo)])],
    fun _ _ => ⟨0, 0, 0⟩⟩

/-- N sequential `add` calls for a single channel (each one
`add(ev_low, ev_high, name, channels=[c])`), propagating the first
exception. -/
def addN (st : Xspress3Rois) (ev_low ev_high : Int) (sfx : String) (c : Nat) :
    Nat → Xspress3Rois × Option PyErr
  | 0 => (st, none)
  | n + 1 =>
      match addN st ev_low ev_high sfx c n with
      | (st', none) => st'.add ev_low ev_high sfx (some [c])
      | (st', some e) => (st', some e)

/-- C8: the energy/bin transform round-trips within the 10 eV truncation
resolution: for every non-negative integer bin `b`,
`ev_to_bin (bin_to_ev b) = b`, and for every non-negative integer energy
`e`, `bin_to_ev (ev_to_bin e)` is the greatest multiple of 10 that is at
most `e` (i.e. `e` rounded down to a multiple of 10). -/
theorem c8_ev_bin_roundtrip (b e : Int) (hb : 0 ≤ b) (he : 0 ≤ e) :
    ev_to_bin (bin_to_ev b) = b ∧
      (∃ k : Int, bin_to_ev (ev_to_bin e) = 10 * k) ∧
      bin_to_ev (ev_to_bin e) ≤ e ∧ e < bin_to_ev (ev_to_bin e) + 10 := by
  unfold ev_to_bin bin_to_ev
  have h10 : (0 : Int) ≤ 10 := by norm_num
  have hb10 : (0 : Int) ≤ b * 10 := by positivity
  rw [Int.tdiv_eq_ediv hb10 h10, Int.tdiv_eq_ediv he h10]
  refine ⟨?_, ⟨e / 10, by ring⟩, ?_, ?_⟩ <;> omega

/-- Witness for C8 at `b = 7`, `e = 123`. -/
theorem c8_ev_bin_roundtrip_witness :
    ev_to_bin (bin_to_ev 7) = 7 ∧
      (∃ k : Int, bin_to_ev (ev_to_bin 123) = 10 * k) ∧
      bin_to_ev (ev_to_bin 123) ≤ 123 ∧ (123 : Int) < bin_to_ev (ev_to_bin 123) + 10 :=
  c8_ev_bin_roundtrip 7 123 (by norm_num) (by norm_num)

/-- C9: in `ROISnapshot.__new__`, when both the energy pair and the bin
pair are supplied, the energy pair is authoritative — the supplied bin
values are discarded and replaced by `ev_to_bin ev_low` / `ev_to_bin
ev_high`; and construction fails exactly when neither complete pair is
supplied. -/
theorem c9_snapshot_energy_authoritative
    (chan : Nat) (el eh bl bh : Int) (elo eho blo bho : Option Int)
    (name : Option String) (data : Option (List Int)) (handle : Bool) :
    ROISnapshot.make chan (some el) (some eh) (some bl) (some bh) name data handle =
      .ok ⟨name, chan, el, eh, ev_to_bin el, ev_to_bin eh, data, handle⟩ ∧
    ((∃ err, ROISnapshot.make chan elo eho blo bho name data handle = .error err) ↔
      ((elo = none ∨ eho = none) ∧ (blo = none ∨ bho = none))) := by
  constructor
  · rfl
  · cases elo <;> cases eho <;> cases blo <;> cases bho <;>
      simp [ROISnapshot.make]

/-- C5 counterexample: `configure_bin 5 3` (a call `set` makes for
energies 50/30) on a device whose registers are all zero puts the device
into a state with `bin_low = 5 > 3 = bin_high` between the low-bound
write and the enable write, so the claimed invariant fails as stated. -/
theorem c5_counterexample :
    ∃ t ∈ betweenStates ⟨0, 0, 0⟩ (configure_bin_writes 0 5 3),
      t.bin_high < t.bin_low := by
  refine ⟨⟨5, 3, 0⟩, ?_, by norm_num⟩
  decide

/-- C5 amended: provided the requested bounds satisfy
`0 ≤ bin_low ≤ bin_high` and the device's high register is non-negative,
no state between the individual device writes of `configure_bin` has
`bin_low > bin_high`; the condition is evaluated against the low register
value read before any write, and the final state has exactly the requested
bounds with the ROI enabled iff `bin_high > bin_low`. -/
theorem c5_configure_bin_no_transient_inversion
    (s : HwState) (bl bh : Int) (hhigh : 0 ≤ s.bin_high)
    (hbl : 0 ≤ bl) (hlh : bl ≤ bh) :
    (∀ t ∈ betweenStates s (configure_bin_writes s.bin_low bl bh),
        t.bin_low ≤ t.bin_high) ∧
      configure_bin s bl bh =
        ⟨bl, bh, if bh > bl then 1 else 0⟩ := by
  have hbh : 0 ≤ bh := le_trans hbl hlh
  constructor
  · intro t ht
    by_cases hzero : bh ≤ s.bin_low
    · simp [betweenStates, hwStates, configure_bin_writes, applyWrite, hzero,
        List.dropLast] at ht
      rcases ht with rfl | rfl | rfl <;> simp <;> omega
    · simp [betweenStates, hwStates, configure_bin_writes, applyWrite, hzero,
        List.dropLast] at ht
      rcases ht with rfl | rfl <;> simp <;> omega
  · by_cases hzero : bh ≤ s.bin_low <;> by_cases hen : bl < bh <;>
      simp [configure_bin, configure_bin_writes, applyWrite, hzero, hen]

/-- Witness for C5 amended at device state `(2, 7, 1)` with request
`configure_bin 3 6`. -/
theorem c5_configure_bin_witness :
    (∀ t ∈ betweenStates ⟨2, 7, 1⟩ (configure_bin_writes 2 3 6),
        t.bin_low ≤ t.bin_high) ∧
      configure_bin ⟨2, 7, 1⟩ 3 6 = ⟨3, 6, if (6:Int) > 3 then 1 else 0⟩ :=
  c5_configure_bin_no_transient_inversion ⟨2, 7, 1⟩ 3 6 (by norm_num)
    (by norm_num) (by norm_num)

/-- C2: evaluation of the `min_current` setter at the claimed scenario
(gate usable with current = 150 and threshold 100, then the threshold is
set to 200).  The setter stores the new threshold but then raises
`AttributeError`, because it reads `self.sr_beam_current`, an attribute
that does not exist on `BeamStatusDetector` (its signal components are
`shutter_status` and `beam_current`); `_current_ok` is never re-evaluated
and remains true, so `usable` does not become false as the claim
requires. -/
theorem c2_min_current_setter_raises :
    min_current_set gate150 200 =
      ({ gate150 with min_current := 200 },
        some (PyErr.attributeError "sr_beam_current")) ∧
      (min_current_set gate150 200).1.current_ok = true ∧
      beamStatus (min_current_set gate150 200).1 = true := by
  refine ⟨rfl, rfl, rfl⟩

/-- C3 counterexample: register one waiter while the gate is blocked,
then open the shutter and deliver current 150 (threshold 100).  The gate
becomes usable and the waiter is marked done, but the waiter list is NOT
cleared — it still holds the fulfilled token, contradicting the claim
that "the waiter list is cleared" at the transition (only `read()`
empties the list). -/
theorem c3_counterexample :
    beamStatus
        (applyEvent (applyEvent (trigger gateInit).1 (.shutter 1))
          (.current 150)) = true ∧
      (applyEvent (applyEvent (trigger gateInit).1 (.shutter 1))
          (.current 150)).statuses = [true] ∧
      (applyEvent (applyEvent (trigger gateInit).1 (.shutter 1))
          (.current 150)).statuses ≠ [] := by
  refine ⟨rfl, rfl, by decide⟩

/-- Helper: `_check_status` marks every waiter done when `status` is
true and otherwise leaves the waiter list untouched; it never removes a
waiter. -/
theorem check_status_statuses (st : BeamState) :
    (check_status st).statuses =
      if beamStatus st then st.statuses.map (fun _ => true) else st.statuses := by
  unfold check_status
  by_cases h : beamStatus st <;> simp [h]

/-- Helper: `_check_status` does not change the derived `status` value. -/
theorem check_status_beamStatus (st : BeamState) :
    beamStatus (check_status st) = beamStatus st := by
  unfold check_status beamStatus
  split <;> simp

/-- C3 amended: whenever an input update makes `usable` true, every
outstanding waiter token is marked done, but the waiter list is not
cleared (it keeps the fulfilled tokens; only `read()` empties it); a
`trigger` call made while `usable` is already true returns an
already-fulfilled token immediately and registers nothing; and a
`trigger` call made while `usable` is false appends an unfulfilled token
which is therefore among those marked done at the transition. -/
theorem c3_waiters_marked_done_list_kept (st : BeamState) (e : BeamEvent) :
    (beamStatus (applyEvent st e) = true →
        (applyEvent st e).statuses = st.statuses.map fun _ => true) ∧
      (beamStatus st = true → trigger st = (st, true)) ∧
      (beamStatus st = false →
        trigger st = ({ st with statuses := st.statuses ++ [false] }, false)) := by
  refine ⟨?_, ?_, ?_⟩
  · intro h
    cases e with
    | shutter v =>
      simp only [applyEvent, shutter_changed] at h ⊢
      rw [check_status_statuses]
      rw [check_status_beamStatus] at h
      simp [h]
    | current v =>
      simp only [applyEvent, current_changed] at h ⊢
      rw [check_status_statuses]
      rw [check_status_beamStatus] at h
      simp [h]
  · intro h
    simp [trigger, h]
  · intro h
    simp [trigger, h]

/-- Witness for C3 amended: a concrete transition fulfilling a pending
waiter without clearing the list, plus both trigger behaviours. -/
theorem c3_waiters_witness :
    (applyEvent ⟨100, some 1, none, true, false, none, [false, false]⟩
        (.current 150)).statuses = [true, true] ∧
      trigger gate150 = (gate150, true) ∧
      trigger gateInit = ({ gateInit with statuses := [false] }, false) := by
  refine ⟨?_, ?_, ?_⟩
  · have h := (c3_waiters_marked_done_list_kept
      ⟨100, some 1, none, true, false, none, [false, false]⟩ (.current 150)).1
    simpa using h (by decide)
  · exact (c3_waiters_marked_done_list_kept gate150 (.current 0)).2.1 (by decide)
  · exact (c3_waiters_marked_done_list_kept gateInit (.current 0)).2.2 (by decide)

/-- Helper: lookup after inserting the same key. -/
theorem alookup_ainsert_self {α : Type} (k : Nat) (v : α) (m : List (Nat × α)) :
    alookup k (ainsert k v m) = some v := by
  induction m with
  | nil => simp [ainsert, alookup]
  | cons p t ih => by_cases h : p.1 = k <;> simp [ainsert, alookup, h, ih]

/-- Helper: lookup after inserting a different key. -/
theorem alookup_ainsert_ne {α : Type} {j k : Nat} (v : α) (m : List (Nat × α))
    (h : j ≠ k) : alookup j (ainsert k v m) = alookup j m := by
  have h' : ¬ k = j := fun hk => h hk.symm
  induction m with
  | nil => simp [ainsert, alookup, h']
  | cons p t ih =>
      by_cases hp : p.1 = k
      · subst hp
        simp [ainsert, alookup, h']
      · simp only [ainsert, if_neg hp]
        by_cases hj : p.1 = j <;> simp [alookup, hj, ih]

/-- Helper: a key is absent exactly when it is not among the keys. -/
theorem alookup_eq_none_iff {α : Type} (k : Nat) (m : List (Nat × α)) :
    alookup k m = none ↔ k ∉ m.map Prod.fst := by
  induction m with
  | nil => simp [alookup]
  | cons p t ih => by_cases h : p.1 = k <;> simp [alookup, h, ih, Ne.symm, eq_comm]

/-- C4 counterexample: on a fresh registry with `limit_rois` enabled and
capacity 16, `set(1, 17, 100, 200)` raises the capacity `ValueError`, but
the registry state is NOT unchanged: the channel-to-slot mapping gains an
empty table for channel 1 (created before the capacity check runs). -/
theorem c4_counterexample :
    (rois0.set 1 17 100 200 none).2 = some (PyErr.valueError capacityMsg) ∧
      (rois0.set 1 17 100 200 none).1.roi_config = [(1, [])] ∧
      (rois0.set 1 17 100 200 none).1.roi_config ≠ rois0.roi_config := by
  refine ⟨rfl, rfl, by decide⟩

/-- C4 amended: with `limit_rois` enabled, every `set` call with a slot
above the hardware capacity and non-zero energies fails with the capacity
`ValueError`; no definition is stored and no `(channel, slot)` entry of
the registry changes, and the device registers are untouched — but, for a
channel that was previously absent, an empty per-channel table is created
before the check, so the state is unchanged only when the channel was
already registered. -/
theorem c4_capacity_error_stores_nothing
    (st : Xspress3Rois) (c r : Nat) (low high : Int) (nm : Option String)
    (hlim : st.limit_rois = true) (hr : st.num_roi < r)
    (hnz : ¬(low = 0 ∧ high = 0)) :
    (st.set c r low high nm).2 = some (PyErr.valueError capacityMsg) ∧
      (∀ ch sl, alookup sl ((alookup ch (st.set c r low high nm).1.roi_config).getD []) =
          alookup sl ((alookup ch st.roi_config).getD [])) ∧
      (st.set c r low high nm).1.hw = st.hw ∧
      (alookup c st.roi_config ≠ none → (st.set c r low high nm).1 = st) := by
  have hle : ¬ r ≤ st.num_roi := by omega
  by_cases hc : alookup c st.roi_config = none
  · have hset : st.set c r low high nm =
        ({ st with roi_config := ainsert c [] st.roi_config },
          some (.valueError capacityMsg)) := by
      simp [Xspress3Rois.set, hc, hnz, hle, hlim]
    rw [hset]
    refine ⟨rfl, ?_, rfl, fun h => absurd hc h⟩
    intro ch sl
    by_cases hch : ch = c
    · subst hch
      rw [alookup_ainsert_self, hc]
      simp [alookup]
    · rw [alookup_ainsert_ne _ _ hch]
  · have hset : st.set c r low high nm = (st, some (.valueError capacityMsg)) := by
      simp [Xspress3Rois.set, hc, hnz, hle, hlim]
    rw [hset]
    exact ⟨rfl, fun ch sl => rfl, rfl, fun _ => rfl⟩

/-- Witness for C4 amended at the fresh registry, channel 1, slot 17. -/
theorem c4_capacity_witness :
    (rois0.set 1 17 100 200 none).2 = some (PyErr.valueError capacityMsg) ∧
      alookup 17 ((alookup 1 (rois0.set 1 17 100 200 none).1.roi_config).getD []) =
        alookup 17 ((alookup 1 rois0.roi_config).getD []) := by
  have h := c4_capacity_error_stores_nothing rois0 1 17 100 200 none rfl
    (by decide) (by decide)
  exact ⟨h.1, h.2.1 1 17⟩

/-- C1: evaluation of `read_hdf5` with `wait=true`, `max_retries=2` at
the three open-outcome scenarios.  When the open fails on attempt 1 and
succeeds on attempt 2, the code still raises the retry-exhausted
`RuntimeError`, because after breaking out of the loop `retry` equals
`max_retries` and the `retry >= max_retries` check re-raises — the claim
(and the source's own success path, which logs that the file opened and
proceeds to the handler) expects the snapshot sequence instead.  When
both attempts fail, the retry-exhausted error is raised as the claim
states; a success on attempt 1 yields the snapshot sequence. -/
theorem c1_read_hdf5_retry_offbyone :
    read_hdf5 rois0 (fun i => i == 2) (fun _ _ => []) 0 none true 2 =
      .error (.runtimeError "Unable to open HDF5 file; exceeded maximum retries") ∧
      read_hdf5 rois0 (fun _ => false) (fun _ _ => []) 0 none true 2 =
        .error (.runtimeError "Unable to open HDF5 file; exceeded maximum retries") ∧
      read_hdf5 rois0 (fun i => i == 1) (fun _ _ => []) 0 none true 2 = .ok [] := by
  refine ⟨rfl, rfl, rfl⟩

/-- Helper: membership in the keys after an insertion. -/
theorem mem_keys_ainsert {α : Type} (j k : Nat) (v : α) (m : List (Nat × α)) :
    j ∈ (ainsert k v m).map Prod.fst ↔ j = k ∨ j ∈ m.map Prod.fst := by
  induction m with
  | nil => simp [ainsert]
  | cons p t ih =>
      by_cases hp : p.1 = k
      · subst hp
        simp [ainsert]
      · simp [ainsert, hp, ih]
        tauto

/-- Helper: insertion preserves distinctness of keys. -/
theorem ainsert_keys_nodup {α : Type} (k : Nat) (v : α) (m : List (Nat × α))
    (h : (m.map Prod.fst).Nodup) : ((ainsert k v m).map Prod.fst).Nodup := by
  induction m with
  | nil => simp [ainsert]
  | cons p t ih =>
      have h' : p.1 ∉ t.map Prod.fst ∧ (t.map Prod.fst).Nodup := by
        simpa using h
      by_cases hp : p.1 = k
      · subst hp
        simpa [ainsert] using h
      · simp only [ainsert, if_neg hp, List.map_cons, List.nodup_cons]
        refine ⟨?_, ih h'.2⟩
        intro hmem
        rcases (mem_keys_ainsert _ _ _ _).mp hmem with h1 | h1
        · exact hp h1
        · exact h'.1 h1

/-- Helper: after erasing a key from a map with distinct keys, the key is
absent. -/
theorem alookup_aerase_self {α : Type} (k : Nat) (m : List (Nat × α))
    (h : (m.map Prod.fst).Nodup) : alookup k (aerase k m) = none := by
  induction m with
  | nil => simp [aerase, alookup]
  | cons p t ih =>
      have h' : p.1 ∉ t.map Prod.fst ∧ (t.map Prod.fst).Nodup := by
        simpa using h
      by_cases hp : p.1 = k
      · subst hp
        simpa [aerase] using (alookup_eq_none_iff _ _).mpr h'.1
      · simp [aerase, alookup, hp, ih h'.2]

/-- Helper: reading the register file at the address just updated. -/
theorem hwUpdate_self (hw : Nat → Nat → HwState) (c r : Nat)
    (f : HwState → HwState) : hwUpdate hw c r f c r = f (hw c r) := by
  simp [hwUpdate]

/-- Helper: the final register state of `configure_bin` holds exactly the
requested bounds, enabled iff `bin_high > bin_low`. -/
theorem configure_bin_final (s : HwState) (bl bh : Int) :
    configure_bin s bl bh = ⟨bl, bh, if bl < bh then 1 else 0⟩ := by
  unfold configure_bin configure_bin_writes
  by_cases h1 : bh ≤ s.bin_low <;> by_cases h2 : bl < bh <;>
    simp [applyWrite, h1, h2]

/-- Helper: `EpicsROI.clear` right after `EpicsROI.configure_bin` always
leaves the registers zeroed and disabled — including the early-return
case, which can only fire when both requested bounds were zero, in which
case `configure_bin` itself had already disabled the ROI. -/
theorem epicsClear_configure_bin (s : HwState) (bl bh : Int) :
    epicsClear (configure_bin s bl bh) = ⟨0, 0, 0⟩ := by
  rw [configure_bin_final]
  unfold epicsClear
  by_cases hb : bl = 0 ∧ bh = 0
  · obtain ⟨h1, h2⟩ := hb
    subst h1
    subst h2
    simp
  · simp [hb]

/-- Helper: a `set` call with non-zero energies and an in-capacity slot
(or `limit_rois` disabled) succeeds, stores `storedInfo` at the slot, and
programs the device exactly when the slot has a hardware handle. -/
theorem set_success (st : Xspress3Rois) (c r : Nat) (low high : Int)
    (nm : Option String) (hnz : ¬(low = 0 ∧ high = 0))
    (hcap : ¬(st.limit_rois = true ∧ st.num_roi < r)) :
    (st.set c r low high nm).2 = none ∧
      alookup c (st.set c r low high nm).1.roi_config =
        some (ainsert r (storedInfo st c r low high nm)
          ((alookup c st.roi_config).getD [])) ∧
      (st.set c r low high nm).1.num_roi = st.num_roi ∧
      (st.set c r low high nm).1.limit_rois = st.limit_rois ∧
      (st.set c r low high nm).1.chan_pfx = st.chan_pfx ∧
      (st.set c r low high nm).1.hw =
        (if r ≤ st.num_roi then
          hwUpdate st.hw c r (fun s => configure_ev s low high)
        else st.hw) := by
  by_cases hcr : r ≤ st.num_roi
  · by_cases hc : alookup c st.roi_config = none <;>
      refine ⟨?_, ?_, ?_, ?_, ?_, ?_⟩ <;>
        simp [Xspress3Rois.set, hc, hnz, hcr, alookup_ainsert_self,
          ROISnapshot.make, storedInfo]
  · have hnr : st.num_roi < r := by omega
    have hlim : st.limit_rois = false := by
      cases hl : st.limit_rois
      · rfl
      · exact absurd ⟨hl, hnr⟩ hcap
    by_cases hc : alookup c st.roi_config = none <;>
      refine ⟨?_, ?_, ?_, ?_, ?_, ?_⟩ <;>
        simp [Xspress3Rois.set, hc, hnz, hcr, hlim, alookup_ainsert_self,
          ROISnapshot.make, storedInfo]

/-- Helper: a `clear` of a present entry succeeds, erases the entry from
the channel table, and hardware-clears the device exactly when the entry
held a handle. -/
theorem clear_present (st : Xspress3Rois) (c r : Nat)
    (m : List (Nat × ROISnapshot)) (info : ROISnapshot)
    (hm : alookup c st.roi_config = some m) (hr : alookup r m = some info) :
    (st.clear c r).2 = none ∧
      alookup c (st.clear c r).1.roi_config = some (aerase r m) ∧
      (st.clear c r).1.hw =
        (if info.has_handle then hwUpdate st.hw c r epicsClear else st.hw) := by
  by_cases hh : info.has_handle <;>
    refine ⟨?_, ?_, ?_⟩ <;>
      simp [Xspress3Rois.clear, Xspress3Rois.set, hm, hr, hh,
        alookup_ainsert_self]

/-- C7: for every `(channel, slot)` and energies that are not both zero,
a successful `set(channel, slot, ev_low, ev_high)` followed immediately
by `clear(channel, slot)` leaves the registry with no entry at that
`(channel, slot)`, and, whenever the definition had a hardware handle
(slot within capacity), leaves that device's low and high bin bounds at
zero with the ROI disabled.  Hypotheses: the call is not the
capacity-error case of C4, and the channel's table has distinct slot keys
(automatic for a real dict). -/
theorem c7_set_then_clear (st : Xspress3Rois) (c r : Nat) (low high : Int)
    (nm : Option String) (hnz : ¬(low = 0 ∧ high = 0))
    (hcap : ¬(st.limit_rois = true ∧ st.num_roi < r))
    (hnd : (((alookup c st.roi_config).getD []).map Prod.fst).Nodup) :
    (st.set c r low high nm).2 = none ∧
      ((st.set c r low high nm).1.clear c r).2 = none ∧
      alookup r ((alookup c
        ((st.set c r low high nm).1.clear c r).1.roi_config).getD []) = none ∧
      (r ≤ st.num_roi →
        ((st.set c r low high nm).1.clear c r).1.hw c r = ⟨0, 0, 0⟩) := by
  obtain ⟨h1, h2, h3, h4, h5, h6⟩ := set_success st c r low high nm hnz hcap
  have hrm : alookup r (ainsert r (storedInfo st c r low high nm)
      ((alookup c st.roi_config).getD [])) =
        some (storedInfo st c r low high nm) :=
    alookup_ainsert_self _ _ _
  obtain ⟨g1, g2, g3⟩ := clear_present (st.set c r low high nm).1 c r _ _ h2 hrm
  refine ⟨h1, g1, ?_, ?_⟩
  · rw [g2]
    exact alookup_aerase_self r _ (ainsert_keys_nodup r _ _ hnd)
  · intro hcr
    have hh : (storedInfo st c r low high nm).has_handle = true := by
      simp [storedInfo, hcr]
    rw [g3, if_pos hh, hwUpdate_self, h6, if_pos hcr, hwUpdate_self]
    exact epicsClear_configure_bin _ _ _

/-- Witness for C7 at the fresh registry, channel 1, slot 2, energies
100 and 200. -/
theorem c7_witness :
    (rois0.set 1 2 100 200 none).2 = none ∧
      ((rois0.set 1 2 100 200 none).1.clear 1 2).2 = none ∧
      alookup 2 ((alookup 1
        ((rois0.set 1 2 100 200 none).1.clear 1 2).1.roi_config).getD []) = none ∧
      ((rois0.set 1 2 100 200 none).1.clear 1 2).1.hw 1 2 = ⟨0, 0, 0⟩ := by
  have h := c7_set_then_clear rois0 1 2 100 200 none (by decide) (by decide)
    (by decide)
  exact ⟨h.1, h.2.1, h.2.2.1, h.2.2.2 (by decide)⟩

/-- Helper: one `clear_all` iteration neither adds nor removes channel
keys (it only empties a present channel's table in place, or raises
without mutating). -/
theorem clearOne_none_iff (st : Xspress3Rois) (ch j : Nat) :
    alookup j (clearOneChannel st ch).1.roi_config = none ↔
      alookup j st.roi_config = none := by
  unfold clearOneChannel
  cases hm : alookup ch st.roi_config with
  | none => simp
  | some m =>
      by_cases hj : j = ch
      · subst hj
        rw [alookup_ainsert_self]
        simp [hm]
      · simp only []
        rw [alookup_ainsert_ne _ _ hj]

/-- Helper: the `clear_all` channel loop raises `KeyError` at the first
channel in the list that is not registered, and the key it reports is
unregistered in the starting state. -/
theorem foldClear_err (channels : List Nat) :
    ∀ st : Xspress3Rois,
      (∃ ch ∈ channels, alookup ch st.roi_config = none) →
      ∃ k, (foldChannels clearOneChannel st channels).2 = some (PyErr.keyError k) ∧
        alookup k st.roi_config = none := by
  induction channels with
  | nil =>
      intro st h
      simp at h
  | cons c cs ih =>
      intro st h
      cases hmm : alookup c st.roi_config with
      | none =>
          refine ⟨c, ?_, hmm⟩
          simp [foldChannels, clearOneChannel, hmm]
      | some m =>
          have hstep : clearOneChannel st c =
              ({ st with hw := hwClearChan st.hw c m, roi_config := ainsert c [] st.roi_config }, none) := by
            simp [clearOneChannel, hmm]
          obtain ⟨ch, hch, habs⟩ := h
          have hch' : ch ∈ cs := by
            rcases List.mem_cons.mp hch with rfl | h'
            · rw [hmm] at habs
              exact absurd habs (by simp)
            · exact h'
          have habs' : alookup ch (clearOneChannel st c).1.roi_config = none :=
            (clearOne_none_iff st c ch).mpr habs
          obtain ⟨k, hk1, hk2⟩ := ih (clearOneChannel st c).1 ⟨ch, hch', habs'⟩
          refine ⟨k, ?_, (clearOne_none_iff st c k).mp hk2⟩
          rw [hstep] at hk1
          simpa [foldChannels, hstep] using hk1

/-- Helper: the `clear_all` channel loop completes without error when
every listed channel is registered. -/
theorem foldClear_ok (channels : List Nat) :
    ∀ st : Xspress3Rois,
      (∀ ch ∈ channels, alookup ch st.roi_config ≠ none) →
      (foldChannels clearOneChannel st channels).2 = none := by
  induction channels with
  | nil =>
      intro st _
      simp [foldChannels]
  | cons c cs ih =>
      intro st h
      cases hmm : alookup c st.roi_config with
      | none => exact absurd hmm (h c (by simp))
      | some m =>
          have hstep : clearOneChannel st c =
              ({ st with hw := hwClearChan st.hw c m, roi_config := ainsert c [] st.roi_config }, none) := by
            simp [clearOneChannel, hmm]
          have h' : ∀ ch ∈ cs, alookup ch (clearOneChannel st c).1.roi_config ≠ none := by
            intro ch hch hcontra
            exact h ch (by simp [hch]) ((clearOne_none_iff st c ch).mp hcontra)
          have hrec := ih (clearOneChannel st c).1 h'
          rw [hstep] at hrec
          simpa [foldChannels, hstep] using hrec

/-- C10: `clear_all` with an explicit channel list containing an
unregistered channel raises `KeyError` (the offending key has no stored
configuration) rather than treating the channel as an empty no-op, while
`clear_all` with the default channel argument visits only registered
channels and never raises. -/
theorem c10_clear_all_keyerror :
    (∀ (st : Xspress3Rois) (channels : List Nat),
        (∃ ch ∈ channels, alookup ch st.roi_config = none) →
        ∃ k, (st.clear_all (some channels)).2 = some (PyErr.keyError k) ∧
          alookup k st.roi_config = none) ∧
      ∀ st : Xspress3Rois, (st.clear_all none).2 = none := by
  constructor
  · intro st channels h
    simpa [Xspress3Rois.clear_all] using foldClear_err channels st h
  · intro st
    have hall : ∀ ch ∈ st.roi_config.map Prod.fst,
        alookup ch st.roi_config ≠ none := by
      intro ch hch hc
      exact ((alookup_eq_none_iff ch st.roi_config).mp hc) hch
    simpa [Xspress3Rois.clear_all] using foldClear_ok _ st hall

/-- Witness for C10: clearing explicit channel 5 on the fresh registry
raises `KeyError`, while the default call is a silent no-op. -/
theorem c10_clear_all_witness :
    (∃ k, (rois0.clear_all (some [5])).2 = some (PyErr.keyError k) ∧
      alookup k rois0.roi_config = none) ∧
      (rois0.clear_all none).2 = none := by
  have h := c10_clear_all_keyerror
  exact ⟨h.1 rois0 [5] ⟨5, by decide, by decide⟩, h.2 rois0⟩

/-- Helper: membership in `range' 1 n` as an interval. -/
theorem mem_range1 (j n : Nat) : j ∈ List.range' 1 n ↔ 1 ≤ j ∧ j < 1 + n := by
  simp only [List.mem_range']
  constructor
  · rintro ⟨i, hi, rfl⟩
    omega
  · rintro ⟨h1, h2⟩
    exact ⟨j - 1, by omega, by omega⟩

/-- Helper: appending the next element to an initial integer range. -/
theorem range1_concat (n : Nat) :
    List.range' 1 (n + 1) = List.range' 1 n ++ [n + 1] := by
  suffices h : ∀ s m : Nat, List.range' s (m + 1) = List.range' s m ++ [s + m] by
    simpa [Nat.add_comm] using h 1 n
  intro s m
  induction m generalizing s with
  | zero => simp [List.range']
  | succ k ih =>
      rw [List.range'_succ, ih, List.range'_succ]
      simp
      omega

/-- Helper: a list without duplicates is no longer than any list
containing it. -/
theorem nodup_subset_length {l1 l2 : List Nat} (h1 : l1.Nodup)
    (hsub : l1 ⊆ l2) : l1.length ≤ l2.length := by
  classical
  calc l1.length = l1.toFinset.card := (List.toFinset_card_of_nodup h1).symm
    _ ≤ l2.toFinset.card := Finset.card_le_card (fun x hx => by
        simp only [List.mem_toFinset] at hx ⊢
        exact hsub hx)
    _ ≤ l2.length := l2.toFinset_card_le

/-- Helper: inserting a new key appends it to the key list. -/
theorem ainsert_keys_of_not_mem {α : Type} (k : Nat) (v : α)
    (m : List (Nat × α)) (h : k ∉ m.map Prod.fst) :
    (ainsert k v m).map Prod.fst = m.map Prod.fst ++ [k] := by
  induction m with
  | nil => simp [ainsert]
  | cons p t ih =>
      simp only [List.map_cons, List.mem_cons, not_or] at h
      have hp : ¬ p.1 = k := fun hh => h.1 hh.symm
      simp [ainsert, hp, ih h.2]

/-- Helper: the `add` slot probe returns the least unoccupied slot when
that slot is reachable before the capacity check fires. -/
theorem addProbe_ok (lim : Bool) (nr : Nat) (m : List (Nat × ROISnapshot))
    (k : Nat) :
    ∀ (fuel start : Nat), start ≤ k →
      (∀ j, start ≤ j → j < k → alookup j m ≠ none) →
      alookup k m = none →
      (lim = true → k ≤ nr) →
      k + 1 ≤ start + fuel →
      addProbe lim nr m start fuel = .ok k := by
  intro fuel
  induction fuel with
  | zero =>
      intro start h1 _ _ _ h5
      omega
  | succ f ih =>
      intro start h1 h2 h3 h4 h5
      have hnl : ¬(lim = true ∧ start > nr) := by
        rintro ⟨hl, hgt⟩
        have := h4 hl
        omega
      by_cases hk : start = k
      · subst hk
        simp [addProbe, hnl, h3]
      · have hlt : start < k := by omega
        cases ho : alookup start m with
        | none => exact absurd ho (h2 start le_rfl hlt)
        | some x =>
            simp only [addProbe, if_neg hnl, ho]
            exact ih (start + 1) (by omega)
              (fun j hj hjk => h2 j (by omega) hjk) h3 h4 (by omega)

/-- Helper: with `limit_rois` enabled and every slot up to capacity
occupied, the `add` slot probe raises the capacity `ValueError`. -/
theorem addProbe_err (lim : Bool) (nr : Nat) (m : List (Nat × ROISnapshot))
    (hlim : lim = true) :
    ∀ (fuel start : Nat),
      (∀ j, start ≤ j → j ≤ nr → alookup j m ≠ none) →
      start ≤ nr + 1 →
      nr + 2 ≤ start + fuel →
      addProbe lim nr m start fuel = .error (.valueError capacityMsg) := by
  intro fuel
  induction fuel with
  | zero =>
      intro start _ _ h3
      omega
  | succ f ih =>
      intro start h1 h2 h3
      by_cases hgt : start > nr
      · simp [addProbe, hlim, hgt]
      · cases ho : alookup start m with
        | none => exact absurd ho (h1 start le_rfl (by omega))
        | some x =>
            have hnl : ¬(lim = true ∧ start > nr) := fun hp => hgt hp.2
            simp only [addProbe, if_neg hnl, ho]
            exact ih (start + 1) (fun j hj hjn => h1 j (by omega) hjn)
              (by omega) (by omega)

/-- Helper: a single `add` on one channel whose least unoccupied slot is
`k` (and `k` within capacity when `limit_rois` is on) succeeds and stores
the formatted-name definition at slot `k`, leaving the registry
configuration fields unchanged. -/
theorem addOne_spec (st : Xspress3Rois) (m : List (Nat × ROISnapshot))
    (k : Nat) (low high : Int) (sfx : String) (c : Nat)
    (hnz : ¬(low = 0 ∧ high = 0))
    (hm : (alookup c st.roi_config).getD [] = m)
    (hk1 : 1 ≤ k)
    (hocc : ∀ j, 1 ≤ j → j < k → alookup j m ≠ none)
    (hfree : alookup k m = none)
    (hlim : st.limit_rois = true → k ≤ st.num_roi) :
    (st.add low high sfx (some [c])).2 = none ∧
      alookup c (st.add low high sfx (some [c])).1.roi_config =
        some (ainsert k
          (storedInfo st c k low high (some (get_roi_name st.chan_pfx c sfx))) m) ∧
      (st.add low high sfx (some [c])).1.num_roi = st.num_roi ∧
      (st.add low high sfx (some [c])).1.limit_rois = st.limit_rois ∧
      (st.add low high sfx (some [c])).1.chan_pfx = st.chan_pfx := by
  have hkb : k ≤ m.length + 1 := by
    by_contra hgt
    push_neg at hgt
    have hsub : List.range' 1 (k - 1) ⊆ m.map Prod.fst := by
      intro j hj
      have hj' := (mem_range1 j (k - 1)).mp hj
      have hne := hocc j hj'.1 (by omega)
      by_contra hnot
      exact hne ((alookup_eq_none_iff _ _).mpr hnot)
    have hlen := nodup_subset_length (List.nodup_range' 1 (k - 1)) hsub
    rw [List.length_range', List.length_map] at hlen
    omega
  have hprobe : addProbe st.limit_rois st.num_roi m 1 (st.num_roi + m.length + 2) =
      .ok k :=
    addProbe_ok _ _ _ k _ 1 hk1 hocc hfree hlim (by omega)
  have hcap : ¬(st.limit_rois = true ∧ st.num_roi < k) := by
    rintro ⟨hl, hgt⟩
    exact absurd (hlim hl) (by omega)
  obtain ⟨s1, s2, s3, s4, s5, s6⟩ :=
    set_success st c k low high (some (get_roi_name st.chan_pfx c sfx)) hnz hcap
  have hpair : st.set c k low high (some (get_roi_name st.chan_pfx c sfx)) =
      ((st.set c k low high (some (get_roi_name st.chan_pfx c sfx))).1, none) := by
    rw [← s1]
  rw [hm] at s2
  have h1 : addOneChannel st low high sfx c =
      st.set c k low high (some (get_roi_name st.chan_pfx c sfx)) := by
    simp only [addOneChannel, hm, hprobe]
  have hadd : st.add low high sfx (some [c]) =
      ((st.set c k low high (some (get_roi_name st.chan_pfx c sfx))).1, none) := by
    simp only [Xspress3Rois.add, Option.getD_some, foldChannels]
    rw [h1, hpair]
  refine ⟨by rw [hadd], ?_, ?_, ?_, ?_⟩
  · rw [hadd]
    exact s2
  · rw [hadd]
    exact s3
  · rw [hadd]
    exact s4
  · rw [hadd]
    exact s5

/-- Helper: the strong induction statement for C6 — starting from a
channel with no stored configuration, N sequential `add` calls (with
capacity room when `limit_rois` is on) all succeed and occupy exactly the
slots 1..N in order. -/
theorem addN_spec (st : Xspress3Rois) (low high : Int) (sfx : String)
    (c : Nat) (hnz : ¬(low = 0 ∧ high = 0))
    (hfresh : alookup c st.roi_config = none) :
    ∀ N, (st.limit_rois = true → N ≤ st.num_roi) →
      (addN st low high sfx c N).2 = none ∧
        ((alookup c (addN st low high sfx c N).1.roi_config).getD []).map Prod.fst =
          List.range' 1 N ∧
        (addN st low high sfx c N).1.num_roi = st.num_roi ∧
        (addN st low high sfx c N).1.limit_rois = st.limit_rois ∧
        (addN st low high sfx c N).1.chan_pfx = st.chan_pfx := by
  intro N
  induction N with
  | zero =>
      intro _
      refine ⟨rfl, ?_, rfl, rfl, rfl⟩
      simp [addN, hfresh]
  | succ n ih =>
      intro hlim
      obtain ⟨ih1, ih2, ih3, ih4, ih5⟩ := ih (fun hl => by
        have := hlim hl
        omega)
      have hpair : addN st low high sfx c n = ((addN st low high sfx c n).1, none) := by
        rw [← ih1]
      have hstep : addN st low high sfx c (n + 1) =
          (addN st low high sfx c n).1.add low high sfx (some [c]) := by
        conv_lhs => rw [addN, hpair]
      have hocc : ∀ j, 1 ≤ j → j < n + 1 →
          alookup j ((alookup c (addN st low high sfx c n).1.roi_config).getD []) ≠ none := by
        intro j hj1 hj2 hnone
        have hmem := (alookup_eq_none_iff _ _).mp hnone
        rw [ih2] at hmem
        exact hmem ((mem_range1 _ _).mpr ⟨hj1, by omega⟩)
      have hfree : alookup (n + 1)
          ((alookup c (addN st low high sfx c n).1.roi_config).getD []) = none := by
        apply (alookup_eq_none_iff _ _).mpr
        rw [ih2]
        intro hmem
        have := (mem_range1 _ _).mp hmem
        omega
      have hlim' : (addN st low high sfx c n).1.limit_rois = true →
          n + 1 ≤ (addN st low high sfx c n).1.num_roi := by
        intro hl
        rw [ih3]
        exact hlim (by rw [← ih4]; exact hl)
      obtain ⟨a1, a2, a3, a4, a5⟩ := addOne_spec (addN st low high sfx c n).1 _
        (n + 1) low high sfx c hnz rfl (by omega) hocc hfree hlim'
      have hnm : (n + 1) ∉
          ((alookup c (addN st low high sfx c n).1.roi_config).getD []).map Prod.fst := by
        rw [ih2]
        intro hmem
        have := (mem_range1 _ _).mp hmem
        omega
      refine ⟨?_, ?_, ?_, ?_, ?_⟩
      · rw [hstep]
        exact a1
      · rw [hstep, a2]
        simp only [Option.getD_some]
        rw [ainsert_keys_of_not_mem _ _ _ hnm, ih2, range1_concat]
      · rw [hstep, a3, ih3]
      · rw [hstep, a4, ih4]
      · rw [hstep, a5, ih5]

/-- Helper: with `limit_rois` enabled and every slot 1..capacity occupied
on the channel, `add` raises the capacity `ValueError`. -/
theorem addFull_err (st : Xspress3Rois) (low high : Int) (sfx : String)
    (c : Nat) (hlim : st.limit_rois = true)
    (hocc : ∀ j, 1 ≤ j → j ≤ st.num_roi →
      alookup j ((alookup c st.roi_config).getD []) ≠ none) :
    (st.add low high sfx (some [c])).2 = some (PyErr.valueError capacityMsg) := by
  have hprobe := addProbe_err st.limit_rois st.num_roi
    ((alookup c st.roi_config).getD []) hlim
    (st.num_roi + ((alookup c st.roi_config).getD []).length + 2) 1
    hocc (by omega) (by omega)
  simp [Xspress3Rois.add, foldChannels, addOneChannel, hprobe]

/-- C6: `add` assigns the lowest-numbered unused slot found by a linear
probe starting at 1 and never reuses an occupied slot.  First conjunct: N
sequential `add` calls on a channel with no prior configuration (and no
intervening clears; energies not both zero, since `set(0,0)` is defined
as deletion) all succeed and occupy exactly the consecutive slots 1..N in
order.  Second conjunct: on any state, a single `add` stores the new
definition at the least slot `k ≥ 1` whose entry is absent.  Third
conjunct: with `limit_rois` enabled and every slot up to the hardware
capacity occupied, `add` fails with the capacity `ValueError`. -/
theorem c6_add_lowest_unused_slot :
    (∀ (st : Xspress3Rois) (low high : Int) (sfx : String) (c N : Nat),
        ¬(low = 0 ∧ high = 0) → alookup c st.roi_config = none →
        (st.limit_rois = true → N ≤ st.num_roi) →
        (addN st low high sfx c N).2 = none ∧
          ((alookup c (addN st low high sfx c N).1.roi_config).getD []).map Prod.fst
            = List.range' 1 N) ∧
      (∀ (st : Xspress3Rois) (k : Nat) (low high : Int) (sfx : String) (c : Nat),
        ¬(low = 0 ∧ high = 0) → 1 ≤ k →
        (∀ j, 1 ≤ j → j < k →
          alookup j ((alookup c st.roi_config).getD []) ≠ none) →
        alookup k ((alookup c st.roi_config).getD []) = none →
        (st.limit_rois = true → k ≤ st.num_roi) →
        (st.add low high sfx (some [c])).2 = none ∧
          alookup k ((alookup c (st.add low high sfx (some [c])).1.roi_config).getD [])
            = some (storedInfo st c k low high (some (get_roi_name st.chan_pfx c sfx)))) ∧
      ∀ (st : Xspress3Rois) (low high : Int) (sfx : String) (c : Nat),
        st.limit_rois = true →
        (∀ j, 1 ≤ j → j ≤ st.num_roi →
          alookup j ((alookup c st.roi_config).getD []) ≠ none) →
        (st.add low high sfx (some [c])).2 = some (PyErr.valueError capacityMsg) := by
  refine ⟨?_, ?_, ?_⟩
  · intro st low high sfx c N hnz hfresh hlim
    obtain ⟨h1, h2, _, _, _⟩ := addN_spec st low high sfx c hnz hfresh N hlim
    exact ⟨h1, h2⟩
  · intro st k low high sfx c hnz hk1 hocc hfree hlim
    obtain ⟨a1, a2, _, _, _⟩ :=
      addOne_spec st ((alookup c st.roi_config).getD []) k low high sfx c hnz
        rfl hk1 hocc hfree hlim
    refine ⟨a1, ?_⟩
    rw [a2]
    simp only [Option.getD_some]
    exact alookup_ainsert_self _ _ _
  · intro st low high sfx c hlim hocc
    exact addFull_err st low high sfx c hlim hocc

/-- Witness for C6: three sequential adds on fresh channel 1 of `rois0`
occupy slots 1, 2, 3; a single `add` on the fresh registry stores at slot
1; and `add` on the fully occupied `stFull` raises the capacity error. -/
theorem c6_add_witness :
    ((addN rois0 100 200 "roi" 1 3).2 = none ∧
      ((alookup 1 (addN rois0 100 200 "roi" 1 3).1.roi_config).getD []).map Prod.fst
        = List.range' 1 3) ∧
      ((rois0.add 100 200 "roi" (some [1])).2 = none ∧
        alookup 1 ((alookup 1 (rois0.add 100 200 "roi" (some [1])).1.roi_config).getD [])
          = some (storedInfo rois0 1 1 100 200 (some (get_roi_name rois0.chan_pfx 1 "roi")))) ∧
      (stFull.add 100 200 "roi" (some [1])).2 = some (PyErr.valueError capacityMsg) := by
  obtain ⟨p1, p2, p3⟩ := c6_add_lowest_unused_slot
  refine ⟨p1 rois0 100 200 "roi" 1 3 (by decide) (by decide) (by decide), ?_, ?_⟩
  · exact p2 rois0 1 100 200 "roi" 1 (by decide) (by decide)
      (by intro j hj1 hj2; omega) (by decide) (by decide)
  · exact p3 stFull 100 200 "roi" 1 (by decide) (by decide)
